import Mathlib

/-!
Verification development for the Hansel Cottage availability-and-pricing
reconciliation engine.  Definitions are shallow embeddings of the TypeScript
source under `src/`:

* `src/src/ics.ts` (calendar store), also the `src/unnamed/part_009` revision,
* `src/src/pricing.ts` (Bookalet pricing adapter, exact-length revision),
* `src/src/index.ts` (narrowing filter, month flow, chat state machine),
  also the `src/unnamed/part_010` and `src/unnamed/part_014` revisions.

Dates: the source passes ISO `YYYY-MM-DD` strings around and compares them
with JavaScript string comparison, which on zero-padded ISO dates coincides
with chronological order.  We model a calendar day either as its proleptic
Gregorian day number (a `Nat`, day 0 = 0001-01-01) where only ordering and
day arithmetic matter, or as an `IsoDate` year/month/day triple where the
day-of-month and day-of-week accessors (`date-fns` `getDate` / `getDay`)
matter.  `toDayNumber` converts, and `dayOfWeek` reproduces JavaScript
`Date.getDay` (0 = Sunday).
-/

/-- Gregorian leap-year test (as implemented by JavaScript `Date` /
`date-fns` `getDaysInMonth`). -/
def isLeap (y : Nat) : Bool :=
  (y % 4 == 0 && y % 100 != 0) || y % 400 == 0

/-- Number of days in month `m` (1-12) of year `y`, as `date-fns`
`getDaysInMonth`.  Out-of-range months do not occur at the call sites
(the TS type is a 1-12 month); the catch-all returns 31. -/
def daysInMonth (y m : Nat) : Nat :=
  match m with
  | 2 => if isLeap y then 29 else 28
  | 4 => 30
  | 6 => 30
  | 9 => 30
  | 11 => 30
  | _ => 31

/-- Days in year `y` strictly before month `m` (1-12). -/
def daysBeforeMonth (y m : Nat) : Nat :=
  let leapAdd := if isLeap y then 1 else 0
  match m with
  | 1 => 0
  | 2 => 31
  | 3 => 59 + leapAdd
  | 4 => 90 + leapAdd
  | 5 => 120 + leapAdd
  | 6 => 151 + leapAdd
  | 7 => 181 + leapAdd
  | 8 => 212 + leapAdd
  | 9 => 243 + leapAdd
  | 10 => 273 + leapAdd
  | 11 => 304 + leapAdd
  | _ => 334 + leapAdd

/-- Proleptic Gregorian day number of year `y`, month `m`, day `d`
(day 0 = 0001-01-01).  Mirrors the day arithmetic the source delegates to
`date-fns` (`parseISO`, `addDays`, `startOfMonth`). -/
def toDayNumber (y m d : Nat) : Nat :=
  365 * (y - 1) + (y - 1) / 4 - (y - 1) / 100 + (y - 1) / 400
    + daysBeforeMonth y m + (d - 1)

/-- JavaScript `Date.getDay` convention: 0 = Sunday … 6 = Saturday.
Day number 0 (0001-01-01) was a Monday. -/
def dayOfWeek (dayNum : Nat) : Nat :=
  (dayNum + 1) % 7

/-- A calendar date as carried in the candidate lists (`from` ISO string in
the source). -/
structure IsoDate where
  y : Nat
  m : Nat
  d : Nat
  deriving DecidableEq, Repr

/-- Day number of an `IsoDate`. -/
def dateToNum (c : IsoDate) : Nat :=
  toDayNumber c.y c.m c.d

/-- The `getDay(parseISO(from))` accessor of the source. -/
def getDayOfWeek (c : IsoDate) : Nat :=
  dayOfWeek (dateToNum c)

/-- Lexicographic strict order on dates; equals JavaScript string `<` on the
zero-padded ISO representations. -/
def isoLtB (a b : IsoDate) : Bool :=
  a.y < b.y || (a.y == b.y && (a.m < b.m || (a.m == b.m && a.d < b.d)))

/-- Lexicographic order, reflexive version (string `<=`). -/
def isoLeB (a b : IsoDate) : Bool :=
  isoLtB a b || a == b

/-! ## Calendar store (`src/src/ics.ts`, `src/unnamed/part_009`) -/

/-- One busy interval parsed from the ICS feed, half-open `[start, endEx)`,
in day numbers.  Source field names are `start` and `end`; `end` is a Lean
keyword, so the exclusive end is `endEx`. -/
structure Booking where
  start : Nat
  endEx : Nat
  deriving DecidableEq, Repr

/-- Embedded from `src/src/ics.ts` lines 98-101: intervals `[aStart, aEnd)`
and `[bStart, bEnd)` overlap iff `aStart < bEnd && bStart < aEnd` (the source
compares ISO strings; on valid dates that is the day-number order). -/
def overlaps (aStart aEnd bStart bEnd : Nat) : Bool :=
  aStart < bEnd && bStart < aEnd

/-- Embedded from `src/src/ics.ts` lines 103-111 (`isRangeAvailable`):
`end = from + nights`, then every booking in the snapshot is tested with
`overlaps`; the first hit returns `false`.  The module-level `BOOKINGS`
snapshot is passed explicitly.  The `src/unnamed/part_009` revision
(lines 69-81) is the same test without the `nights <= 0` guard; the two
agree for `nights >= 1`. -/
def isRangeAvailable (bookings : List Booking) (fromDay nights : Nat) : Bool :=
  if nights = 0 then false
  else bookings.all fun b => !(overlaps fromDay (fromDay + nights) b.start b.endEx)

/-- Embedded from `src/src/ics.ts` lines 125-139 (`findAvailabilityInMonth`):
scan every day of the month in order, keep the days for which
`isRangeAvailable` holds, stop at `max` results (push-then-break, hence
`take max` of the filtered scan). -/
def findAvailabilityInMonth (bookings : List Booking) (year month : Nat)
    (nights cap : Nat) : List IsoDate :=
  ((((List.range' 1 (daysInMonth year month)).map
      (fun d => IsoDate.mk year month d)).filter
      (fun c => isRangeAvailable bookings (dateToNum c) nights)).take cap)

/-- Sort bookings by start date ascending, as
`bookings.sort((a, b) => a.start.localeCompare(b.start))` in the source. -/
def sortBookings (bs : List Booking) : List Booking :=
  bs.mergeSort (fun a b => a.start ≤ b.start)

/-- Outcome of the external fetch/parse step of `refreshIcs`, which is I/O in
the source.  `fetchFailed` is `src/src/ics.ts` line 85 (`!res.ok` throws
before any assignment); `parseFailed` is the `src/unnamed/part_009` revision
where `ical.parseICS` may throw (lines 21-61, caught at line 58); `parsed bs`
is a successful fetch and parse. -/
inductive RefreshOutcome where
  | fetchFailed
  | parseFailed
  | parsed (bs : List Booking)
  deriving DecidableEq, Repr

/-- Embedded from `src/src/ics.ts` lines 75-89 and `src/unnamed/part_009`
lines 16-62 (`refreshIcs`) as a state transition on the published snapshot:
on success the snapshot is replaced wholesale by the freshly parsed, sorted
bookings; on fetch or parse failure the function throws/logs before the
assignment to the module-level snapshot, so the previous snapshot stays.
The returned `Bool` is `true` iff the refresh succeeded. -/
def refreshIcs (snapshot : List Booking) (o : RefreshOutcome) :
    List Booking × Bool :=
  match o with
  | .fetchFailed => (snapshot, false)
  | .parseFailed => (snapshot, false)
  | .parsed bs => (sortBookings bs, true)

/-! ## Pricing oracle adapter (`src/src/pricing.ts`, exact-length revision,
lines 161-228) -/

/-- One row of the Bookalet `bookable` response. -/
structure BookaletRow where
  Days : Nat
  Cost : Int
  Discount : Int
  deriving DecidableEq, Repr

/-- Result of `quoteForStay` in the exact-length revision:
`total = 0` means not priceable for that start/length; `matchedNights` is
`true` only when a `Days === nights` row was found (and priced `> 0`). -/
structure QuoteResult where
  currency : String
  total : Int
  matchedNights : Bool
  deriving DecidableEq, Repr

/-- Embedded from `src/src/pricing.ts` lines 185-228 (`quoteForStay`,
exact-length revision).  The external fetch is a parameter: `none` models a
network failure, a non-OK response or a non-array body (the `catch` /
`!resp.ok` / `Array.isArray` branches, which all yield the unpriced result);
`some rows` is a parsed response.  Only the row with `Days === nights` is
accepted (`data.find`), `total = max(0, Cost - Discount)`, and a
non-positive total degrades to unpriced.  (`isFinite` is vacuous on `Int`.) -/
def quoteForStay (fetched : Option (List BookaletRow)) (nights : Nat) :
    QuoteResult :=
  match fetched with
  | none => ⟨"GBP", 0, false⟩
  | some data =>
    match data.find? (fun r => r.Days == nights) with
    | none => ⟨"GBP", 0, false⟩
    | some row =>
      let total := max 0 (row.Cost - row.Discount)
      if total ≤ 0 then ⟨"GBP", 0, false⟩
      else ⟨"GBP", total, true⟩

/-! ## Month flow pricing loop (`src/src/index.ts` lines 583-613) -/

/-- A priced bookable candidate, `{ from, price }` in the source (`from` is a
Lean keyword, so the field is `fromDate`). -/
structure Candidate where
  fromDate : IsoDate
  price : Int
  deriving DecidableEq, Repr

/-- Embedded from `src/src/index.ts` lines 593-599 (the pricing loop of
`runMonthFlow`): each candidate start date is priced in scan order; a
candidate is kept iff `q.matchedNights && q.total > 0`; any per-candidate
failure (modelled by the oracle returning `none`) is swallowed by the
`try/catch` and only excludes that candidate.  The oracle response for each
date is a parameter. -/
def runMonthFlowValid (oracle : IsoDate → Option (List BookaletRow))
    (nights : Nat) (candidates : List IsoDate) : List Candidate :=
  candidates.filterMap fun c =>
    let q := quoteForStay (oracle c) nights
    if q.matchedNights && 0 < q.total then some ⟨c, q.total⟩ else none

/-! ## Narrowing filter (`src/src/index.ts` lines 282-297 and 369-444; the
`src/unnamed/part_010` revision, lines 189-258, is the same filter without
the `lastWeekday` case) -/

/-- The `NarrowFilter` tagged union of `src/src/index.ts` lines 282-297.
The ordinal of `weeknum` / `nthWeekday` has TS type `1|2|3|4|5`. -/
inductive NarrowFilter where
  | fridays
  | weekdays
  | weekends
  | weekday (dow : Nat)
  | early
  | mid
  | late
  | firsthalf
  | secondhalf
  | around (day : Nat) (dow : Option Nat)
  | dayrange (lo hi : Nat)
  | weeknum (n : Nat)
  | nthWeekday (n : Nat) (dow : Nat)
  | lastWeekday (dow : Nat)
  | date (d : IsoDate)
  deriving DecidableEq, Repr

/-- The 7-day bucket table of the `weeknum` / `nthWeekday` cases
(`ranges` records at `src/src/index.ts` lines 408-414 and 419-425).  `n` is
1-5 by its TS type; the catch-all arm covers `n = 5`. -/
def weekRanges (n : Nat) : Nat × Nat :=
  match n with
  | 1 => (1, 7)
  | 2 => (8, 14)
  | 3 => (15, 21)
  | 4 => (22, 28)
  | _ => (29, 31)

/-- Maximum of a list of dates under the ISO string order, given a first
element: models `.sort((a, b) => ...).slice(-1)[0]` (last element of the
ascending sort) in the `lastWeekday` case. -/
def isoListMax (x : IsoDate) (xs : List IsoDate) : IsoDate :=
  xs.foldl (fun u v => if isoLeB u v then v else u) x

/-- Embedded from `src/src/index.ts` lines 369-444 (`applyNarrowingFilter`).
`byDay` filters on `getDate(parseISO(from))` (the day of month, `.d` here)
and `byDOW` on `getDay(parseISO(from))`; each case is the corresponding
`switch` arm.  In the `around` case `Math.abs(day - f.day)` is taken over
the integers. -/
def applyNarrowingFilter (dates : List Candidate) (f : NarrowFilter) :
    List Candidate :=
  match f with
  | .date d => dates.filter (fun c => c.fromDate == d)
  | .fridays => dates.filter (fun c => getDayOfWeek c.fromDate == 5)
  | .weekends => dates.filter (fun c => getDayOfWeek c.fromDate == 5)
  | .weekdays => dates.filter (fun c =>
      decide (1 ≤ getDayOfWeek c.fromDate) && decide (getDayOfWeek c.fromDate ≤ 4))
  | .weekday dow => dates.filter (fun c => getDayOfWeek c.fromDate == dow)
  | .early => dates.filter (fun c => decide (c.fromDate.d ≤ 10))
  | .mid => dates.filter (fun c =>
      decide (10 ≤ c.fromDate.d) && decide (c.fromDate.d ≤ 20))
  | .late => dates.filter (fun c => decide (21 ≤ c.fromDate.d))
  | .firsthalf => dates.filter (fun c => decide (c.fromDate.d ≤ 15))
  | .secondhalf => dates.filter (fun c => decide (16 ≤ c.fromDate.d))
  | .around day dow => dates.filter (fun c =>
      let ok := decide (((c.fromDate.d : Int) - (day : Int)).natAbs ≤ 3)
      match dow with
      | none => ok
      | some w => ok && (getDayOfWeek c.fromDate == w))
  | .dayrange lo hi => dates.filter (fun c =>
      decide (lo ≤ c.fromDate.d) && decide (c.fromDate.d ≤ hi))
  | .weeknum n =>
      let r := weekRanges n
      dates.filter (fun c => decide (r.1 ≤ c.fromDate.d) && decide (c.fromDate.d ≤ r.2))
  | .nthWeekday n dow =>
      let r := weekRanges n
      dates.filter (fun c =>
        decide (r.1 ≤ c.fromDate.d) && decide (c.fromDate.d ≤ r.2)
          && (getDayOfWeek c.fromDate == dow))
  | .lastWeekday dow =>
      match dates.filter (fun c => getDayOfWeek c.fromDate == dow) with
      | [] => []
      | x :: xs =>
        let maxIso := isoListMax x.fromDate (xs.map (·.fromDate))
        dates.filter (fun c => c.fromDate == maxIso)

/-! ## Conversation state machine (`src/src/index.ts` lines 446-622,
`src/unnamed/part_010` lines 260-431, `src/unnamed/part_014` lines 256-257).

The per-session narrowing memory is `pendingNarrowByConv`; its entry for the
current session (`Option PendingNarrow`) is the machine state: `some p` is
the narrowing state, `none` is idle.  The message-analysis pieces that are
regex or LLM black boxes in the source (`navNext`, `navPrev`, the explicit
date, `parseNarrowing`, `interpretMessageWithLLM`) enter as a `MsgProbe`
record, and the runtime results of the external calls made inside a branch
(`isRangeAvailable`, `quoteForStay`, the number of priced month candidates)
enter as further parameters, so each handler is a pure transition
function. -/

/-- The `PendingNarrow` record (`src/src/index.ts` line 128). -/
structure PendingNarrow where
  year : Int
  month : Nat
  nights : Nat
  deriving DecidableEq, Repr

/-- Result of `interpretMessageWithLLM` as the state machine consumes it:
a concrete dates intent, a month intent, anything else (unrelated question),
or the call throwing. -/
inductive IntentKind where
  | dates
  | month
  | unrelated
  | probeError
  deriving DecidableEq, Repr

/-- Message-analysis results for one incoming message.  `navNext` / `navPrev`
are the `^next$` / `^prev(ious)?$` regex tests (mutually exclusive on any
concrete message, since the regexes are anchored and disjoint);
`explicitDate` is `isoFromBody(...) || parseHumanDateInMonth(...)`;
`narrowing` is `parseNarrowing(message)`; `intent` is the LLM probe. -/
structure MsgProbe where
  navNext : Bool
  navPrev : Bool
  explicitDate : Option IsoDate
  narrowing : Option NarrowFilter
  intent : IntentKind
  deriving DecidableEq, Repr

/-- The user-visible reply category of one chat turn (which reply branch of
the source produced the answer). -/
inductive ChatAction where
  | monthEmpty
  | monthList
  | monthAskNarrow
  | dateUnavailable
  | dateUnpriced
  | dateConfirmed
  | narrowed (f : NarrowFilter)
  | ragAnswer
  | datesFlow
  | errorAnswer
  deriving DecidableEq, Repr

/-- Outcome of the pending-narrowing block: either a reply is produced
(`respond`, with the session state it leaves behind), or control falls
through to the main intent handler (`fallthrough`). -/
inductive PendingOutcome where
  | respond (newPending : Option PendingNarrow) (action : ChatAction)
  | fallthrough (newPending : Option PendingNarrow)
  deriving DecidableEq, Repr

/-- Embedded from `src/src/index.ts` lines 467-474 (and identically
`src/unnamed/part_010` lines 279-283, `src/unnamed/part_014` lines 256-257):
"next" adds one to the month rolling 12 into month 1 of the next year,
"previous" subtracts one rolling 1 into month 12 of the previous year;
`nights` is carried over unchanged. -/
def navUpdate (p : PendingNarrow) (isNext : Bool) : PendingNarrow :=
  if isNext then
    let m := p.month + 1
    if 12 < m then ⟨p.year + 1, 1, p.nights⟩ else ⟨p.year, m, p.nights⟩
  else
    let m := p.month - 1
    if m < 1 then ⟨p.year - 1, 12, p.nights⟩ else ⟨p.year, m, p.nights⟩

/-- Embedded from `src/src/index.ts` lines 459-523, the pending-narrowing
block of `handleChat`, as a transition from the narrowing state `p`.
Branches in source order: month navigation (lines 467-474, which stores the
updated pending entry and runs the month flow with `keepPending = true`; the
month flow re-stores it only when candidates exist, lines 608-609, so the
updated entry survives either way); an explicit date (lines 477-496, the
pending entry is deleted only on a confirmed, priced date); a recognized
narrowing constraint (lines 498-522, the pending entry is never touched);
otherwise control falls through to the main intent handler with the pending
entry still in place.  `dateFree` is the `isRangeAvailable` result and `q`
the quote for the explicit-date branch; `validCount` is the number of priced
candidates the month flow finds. -/
def handlePendingIndex (p : PendingNarrow) (probe : MsgProbe)
    (dateFree : Bool) (q : QuoteResult) (validCount : Nat) : PendingOutcome :=
  if probe.navNext || probe.navPrev then
    let pNew := navUpdate p probe.navNext
    if validCount = 0 then .respond (some pNew) .monthEmpty
    else .respond (some pNew) .monthList
  else
    match probe.explicitDate with
    | some _ =>
      if !dateFree then .respond (some p) .dateUnavailable
      else if !q.matchedNights || q.total ≤ 0 then .respond (some p) .dateUnpriced
      else .respond none .dateConfirmed
    | none =>
      match probe.narrowing with
      | some f => .respond (some p) (.narrowed f)
      | none => .fallthrough (some p)

/-- Embedded from `src/unnamed/part_010` lines 273-352, the pending-narrowing
block of that revision of `handleChat`.  The first three branches match
`src/src/index.ts` (the explicit-date branch checks only `q.total <= 0`, line
298, and the month flow of this revision additionally answers "ask to narrow"
when more than 6 candidates remain, lines 418-423); the final branch (lines
335-351) is the escape hatch: the LLM probe classifies the message, and if it
is neither a dates nor a month intent — or the probe throws — the pending
entry is deleted and the message is answered directly as a general
question. -/
def handlePendingPart010 (p : PendingNarrow) (probe : MsgProbe)
    (dateFree : Bool) (q : QuoteResult) (validCount : Nat) : PendingOutcome :=
  if probe.navNext || probe.navPrev then
    let pNew := navUpdate p probe.navNext
    if validCount = 0 then .respond (some pNew) .monthEmpty
    else if 6 < validCount then .respond (some pNew) .monthAskNarrow
    else .respond (some pNew) .monthList
  else
    match probe.explicitDate with
    | some _ =>
      if !dateFree then .respond (some p) .dateUnavailable
      else if q.total ≤ 0 then .respond (some p) .dateUnpriced
      else .respond none .dateConfirmed
    | none =>
      match probe.narrowing with
      | some f => .respond (some p) (.narrowed f)
      | none =>
        match probe.intent with
        | .dates => .fallthrough (some p)
        | .month => .fallthrough (some p)
        | .unrelated => .respond none .ragAnswer
        | .probeError => .respond none .ragAnswer

/-- Embedded from `src/src/index.ts` lines 525-579 plus `runMonthFlow`
(lines 583-622), the main intent handler: a dates intent runs the exact-date
flow (which never touches the pending entry); a month intent runs the month
flow with `keepPending = false`, which deletes the pending entry only after
finding at least one priced candidate (the early "no opening" return at
lines 602-606 leaves it untouched); anything else is answered by the RAG
layer, and an exception by the outer catch — neither touches the pending
entry.  `monthIntent` is the `(year, month, nights)` of a month intent. -/
def mainStepIndex (pending : Option PendingNarrow) (intent : IntentKind)
    (monthIntent : PendingNarrow) (validCount : Nat) :
    Option PendingNarrow × ChatAction :=
  match intent with
  | .dates => (pending, .datesFlow)
  | .month =>
    if validCount = 0 then (pending, .monthEmpty) else (none, .monthList)
  | .unrelated => (pending, .ragAnswer)
  | .probeError => (pending, .errorAnswer)

/-- Embedded from `src/unnamed/part_010` lines 354-393 plus `runMonthFlow`
(lines 396-431): as `mainStepIndex`, except that a month flow with more than
6 priced candidates stores the month intent as the new pending entry and asks
the user to narrow (lines 418-423). -/
def mainStepPart010 (pending : Option PendingNarrow) (intent : IntentKind)
    (monthIntent : PendingNarrow) (validCount : Nat) :
    Option PendingNarrow × ChatAction :=
  match intent with
  | .dates => (pending, .datesFlow)
  | .month =>
    if validCount = 0 then (pending, .monthEmpty)
    else if 6 < validCount then (some monthIntent, .monthAskNarrow)
    else (none, .monthList)
  | .unrelated => (pending, .ragAnswer)
  | .probeError => (pending, .errorAnswer)

/-- One full chat turn of `src/src/index.ts` `handleChat` as a transition on
the session's narrowing state: the pending block runs first when a pending
entry exists; on fallthrough the main intent handler runs. -/
def handleChatIndex (pending : Option PendingNarrow) (probe : MsgProbe)
    (monthIntent : PendingNarrow) (dateFree : Bool) (q : QuoteResult)
    (validCount : Nat) : Option PendingNarrow × ChatAction :=
  match pending with
  | some p =>
    match handlePendingIndex p probe dateFree q validCount with
    | .respond np a => (np, a)
    | .fallthrough np => mainStepIndex np probe.intent monthIntent validCount
  | none => mainStepIndex none probe.intent monthIntent validCount

/-- One full chat turn of the `src/unnamed/part_010` revision of
`handleChat`, as `handleChatIndex`. -/
def handleChatPart010 (pending : Option PendingNarrow) (probe : MsgProbe)
    (monthIntent : PendingNarrow) (dateFree : Bool) (q : QuoteResult)
    (validCount : Nat) : Option PendingNarrow × ChatAction :=
  match pending with
  | some p =>
    match handlePendingPart010 p probe dateFree q validCount with
    | .respond np a => (np, a)
    | .fallthrough np => mainStepPart010 np probe.intent monthIntent validCount
  | none => mainStepPart010 none probe.intent monthIntent validCount

/-! ## Theorems -/

/-- Filtering twice with the same predicate equals filtering once. -/
theorem filter_self_idem {α : Type} (p : α → Bool) (l : List α) :
    (l.filter p).filter p = l.filter p := by
  induction l with
  | nil => rfl
  | cons a t ih =>
    by_cases h : p a = true
    · simp [List.filter_cons, h, ih]
    · simp [List.filter_cons, h, ih]

/-- C1.  For every start date and `nights >= 1`, `isRangeAvailable` computes
`end = startDate + nights` and returns `true` iff no busy interval `b` of the
snapshot satisfies `startDate < b.end AND end > b.start`; and for adjacent
busy intervals `[a, b)` and `[b, c)`, a stay `[b, b + n)` starting exactly at
`b` does not conflict with the interval ending at `b` (checkout day equal to
check-in day is free with respect to it). -/
theorem isFree_overlap_spec :
    (∀ (bookings : List Booking) (startDay nights : Nat), 1 ≤ nights →
      (isRangeAvailable bookings startDay nights = true ↔
        ∀ b ∈ bookings, ¬(startDay < b.endEx ∧ startDay + nights > b.start)))
    ∧ (∀ a b c n : Nat, a < b → b < c → 1 ≤ n →
        overlaps b (b + n) a b = false ∧ isRangeAvailable [⟨a, b⟩] b n = true) := by
  constructor
  · intro bookings startDay nights h
    have hn : ¬(nights = 0) := by omega
    simp [isRangeAvailable, hn, overlaps, List.all_eq_true, gt_iff_lt]
    constructor
    · intro H b hb
      have := H b hb
      omega
    · intro H b hb
      have := H b hb
      omega
  · intro a b c n hab hbc hn
    have hn0 : ¬(n = 0) := by omega
    constructor
    · simp [overlaps]
    · simp [isRangeAvailable, hn0, overlaps]

/-- Witness for C1 at the concrete snapshot `[[10, 20)]` and a 3-night stay
starting on day 20 (the checkout day of the booking). -/
theorem isFree_overlap_spec_witness :
    (isRangeAvailable [⟨10, 20⟩] 20 3 = true ↔
      ∀ b ∈ [Booking.mk 10 20], ¬(20 < b.endEx ∧ 20 + 3 > b.start))
    ∧ (overlaps 20 (20 + 3) 10 20 = false ∧ isRangeAvailable [⟨10, 20⟩] 20 3 = true) :=
  ⟨isFree_overlap_spec.1 [⟨10, 20⟩] 20 3 (by decide),
   isFree_overlap_spec.2 10 20 25 3 (by decide) (by decide) (by decide)⟩

/-- C2.  A priced quote only ever comes from the oracle row whose `Days`
exactly equals the requested nights, with `total = max(0, Cost - Discount)`
(no interpolation across stay lengths); on the oracle rows
`(5, 500, 0), (7, 700, 50)` a 7-night request prices to 650 and a 6-night
request is unpriced. -/
theorem quote_exact_length_only :
    (∀ (rows : List BookaletRow) (n : Nat),
      (quoteForStay (some rows) n).matchedNights = true →
      ∃ r ∈ rows, r.Days = n ∧
        (quoteForStay (some rows) n).total = max 0 (r.Cost - r.Discount))
    ∧ quoteForStay (some [⟨5, 500, 0⟩, ⟨7, 700, 50⟩]) 7 = ⟨"GBP", 650, true⟩
    ∧ quoteForStay (some [⟨5, 500, 0⟩, ⟨7, 700, 50⟩]) 6 = ⟨"GBP", 0, false⟩ := by
  refine ⟨?_, by decide, by decide⟩
  intro rows n h
  cases hf : rows.find? (fun r => r.Days == n) with
  | none => simp [quoteForStay, hf] at h
  | some row =>
    by_cases ht : max 0 (row.Cost - row.Discount) ≤ 0
    · simp [quoteForStay, hf, ht] at h
    · exact ⟨row, List.mem_of_find?_eq_some hf,
        by simpa using List.find?_some hf,
        by simp [quoteForStay, hf, ht]⟩

/-- Witness for C2: the 7-night request against the two concrete oracle rows
is priced, so the exact-match row exists and carries the total. -/
theorem quote_exact_length_only_witness :
    ∃ r ∈ [BookaletRow.mk 5 500 0, BookaletRow.mk 7 700 50], r.Days = 7 ∧
      (quoteForStay (some [⟨5, 500, 0⟩, ⟨7, 700, 50⟩]) 7).total =
        max 0 (r.Cost - r.Discount) :=
  quote_exact_length_only.1 [⟨5, 500, 0⟩, ⟨7, 700, 50⟩] 7 (by decide)

/-- C8.  A pricing query never fails hard for "no price": a failed or
malformed oracle call yields the unpriced result, a response with no
exact-length row yields the unpriced result, and in the batch month flow a
candidate whose oracle call fails is merely dropped — the rest of the batch
is priced exactly as if that candidate were absent. -/
theorem pricing_failure_absorbed :
    (∀ n : Nat, quoteForStay none n = ⟨"GBP", 0, false⟩)
    ∧ (∀ (rows : List BookaletRow) (n : Nat),
        (∀ r ∈ rows, r.Days ≠ n) → quoteForStay (some rows) n = ⟨"GBP", 0, false⟩)
    ∧ (∀ (oracle : IsoDate → Option (List BookaletRow)) (n : Nat)
        (l₁ l₂ : List IsoDate) (c : IsoDate), oracle c = none →
        runMonthFlowValid oracle n (l₁ ++ c :: l₂) =
          runMonthFlowValid oracle n l₁ ++ runMonthFlowValid oracle n l₂) := by
  refine ⟨fun _ => rfl, ?_, ?_⟩
  · intro rows n hnone
    have hf : rows.find? (fun r => r.Days == n) = none := by
      rw [List.find?_eq_none]
      intro r hr
      simpa using hnone r hr
    simp [quoteForStay, hf]
  · intro oracle n l₁ l₂ c hc
    simp [runMonthFlowValid, List.filterMap_append, List.filterMap_cons, hc,
      quoteForStay]

/-- Witness for C8: a two-row response with no 7-night row is unpriced, and a
batch around a candidate whose oracle call fails prices as if the candidate
were absent. -/
theorem pricing_failure_absorbed_witness :
    quoteForStay (some [BookaletRow.mk 5 500 0]) 7 = ⟨"GBP", 0, false⟩
    ∧ runMonthFlowValid (fun _ => none) 7 ([] ++ IsoDate.mk 2026 8 7 :: []) =
        runMonthFlowValid (fun _ => none) 7 [] ++ runMonthFlowValid (fun _ => none) 7 [] :=
  ⟨pricing_failure_absorbed.2.1 [⟨5, 500, 0⟩] 7 (by decide),
   pricing_failure_absorbed.2.2 (fun _ => none) 7 [] [] ⟨2026, 8, 7⟩ rfl⟩

/-- C9.  A failed calendar refresh (fetch failure, or parse failure in the
`part_009` revision) leaves the previously published snapshot unchanged and
reports failure; a successful refresh replaces the snapshot wholesale with
the freshly parsed, sorted bookings, independent of the old snapshot. -/
theorem refresh_failure_keeps_snapshot :
    ∀ snapshot : List Booking,
      refreshIcs snapshot .fetchFailed = (snapshot, false)
      ∧ refreshIcs snapshot .parseFailed = (snapshot, false)
      ∧ ∀ bs : List Booking, (refreshIcs snapshot (.parsed bs)).1 = sortBookings bs :=
  fun _ => ⟨rfl, rfl, fun _ => rfl⟩

/-- Unfolding `isoListMax` one step. -/
theorem isoListMax_cons_eq (a b : IsoDate) (t : List IsoDate) :
    isoListMax a (b :: t) = isoListMax (if isoLeB a b then b else a) t := rfl

/-- The running maximum is one of the listed dates. -/
theorem isoListMax_mem (a : IsoDate) (l : List IsoDate) :
    isoListMax a l ∈ a :: l := by
  induction l generalizing a with
  | nil => simp [isoListMax]
  | cons b t ih =>
    rw [isoListMax_cons_eq]
    rcases List.mem_cons.mp (ih (if isoLeB a b then b else a)) with h | h
    · rw [h]
      split
      · simp
      · simp
    · exact List.mem_cons_of_mem _ (List.mem_cons_of_mem _ h)

/-- The running maximum of a constant list is that constant. -/
theorem isoListMax_const (a : IsoDate) (l : List IsoDate)
    (h : ∀ x ∈ l, x = a) : isoListMax a l = a := by
  induction l with
  | nil => rfl
  | cons b t ih =>
    rw [isoListMax_cons_eq, h b (List.mem_cons_self _ _)]
    have he : (if isoLeB a a then a else a) = a := by split <;> rfl
    rw [he]
    exact ih fun x hx => h x (List.mem_cons_of_mem _ hx)

/-- Evaluation of the `lastWeekday` arm when no candidate matches the
weekday. -/
theorem applyLastWeekday_nil (l : List Candidate) (dow : Nat)
    (h : l.filter (fun c => getDayOfWeek c.fromDate == dow) = []) :
    applyNarrowingFilter l (.lastWeekday dow) = [] := by
  simp only [applyNarrowingFilter, h]

/-- Evaluation of the `lastWeekday` arm when at least one candidate matches
the weekday. -/
theorem applyLastWeekday_cons (l : List Candidate) (dow : Nat)
    (x : Candidate) (xs : List Candidate)
    (h : l.filter (fun c => getDayOfWeek c.fromDate == dow) = x :: xs) :
    applyNarrowingFilter l (.lastWeekday dow) =
      l.filter (fun c => c.fromDate == isoListMax x.fromDate (xs.map (·.fromDate))) := by
  simp only [applyNarrowingFilter, h]

/-- C10.  For every candidate list and every narrowing constraint, the
narrowing filter returns a subsequence of its input: every returned
candidate is an input candidate, nothing is synthesized or duplicated, and
the input's relative order is preserved — for every constraint kind,
including `lastWeekday`. -/
theorem narrowing_filter_subsequence :
    ∀ (dates : List Candidate) (f : NarrowFilter),
      (applyNarrowingFilter dates f).Sublist dates := by
  intro dates f
  cases f with
  | lastWeekday dow =>
    cases h1 : dates.filter (fun c => getDayOfWeek c.fromDate == dow) with
    | nil =>
      rw [applyLastWeekday_nil dates dow h1]
      exact List.nil_sublist _
    | cons x xs =>
      rw [applyLastWeekday_cons dates dow x xs h1]
      exact List.filter_sublist _
  | _ =>
    simp only [applyNarrowingFilter]
    exact List.filter_sublist _

/-- C5.  The narrowing filter is a pure function (its embedding is a total
function of the candidate list and the constraint alone — the source reads
only `getDate` / `getDay` of its input, no hidden state or I/O), and
applying the same constraint twice to the same candidate list yields the
same result as applying it once. -/
theorem narrowing_filter_idempotent :
    ∀ (dates : List Candidate) (f : NarrowFilter),
      applyNarrowingFilter (applyNarrowingFilter dates f) f =
        applyNarrowingFilter dates f := by
  intro dates f
  cases f with
  | lastWeekday dow =>
    cases h1 : dates.filter (fun c => getDayOfWeek c.fromDate == dow) with
    | nil =>
      rw [applyLastWeekday_nil dates dow h1, applyLastWeekday_nil [] dow rfl]
    | cons x xs =>
      rw [applyLastWeekday_cons dates dow x xs h1]
      set M := isoListMax x.fromDate (xs.map (·.fromDate)) with hM
      have hdowM : getDayOfWeek M = dow := by
        have hmem : M ∈ (x :: xs).map (·.fromDate) := by
          rw [List.map_cons]
          exact isoListMax_mem _ _
        rcases List.mem_map.mp hmem with ⟨y, hy, hyM⟩
        rw [← h1] at hy
        have hyP := (List.mem_filter.mp hy).2
        rw [hyM] at hyP
        simpa using hyP
      have hRP : (dates.filter (fun c => c.fromDate == M)).filter
          (fun c => getDayOfWeek c.fromDate == dow) =
          dates.filter (fun c => c.fromDate == M) := by
        apply List.filter_eq_self.mpr
        intro c hc
        have hcM : c.fromDate = M := by
          simpa using (List.mem_filter.mp hc).2
        simp [hcM, hdowM]
      cases h2 : dates.filter (fun c => c.fromDate == M) with
      | nil =>
        rw [applyLastWeekday_nil [] dow rfl]
      | cons z zs =>
        rw [h2] at hRP
        rw [applyLastWeekday_cons (z :: zs) dow z zs hRP]
        have hall : ∀ w ∈ z :: zs, w.fromDate = M := by
          intro w hw
          rw [← h2] at hw
          simpa using (List.mem_filter.mp hw).2
        have hM2 : isoListMax z.fromDate (zs.map (·.fromDate)) = M := by
          rw [hall z (List.mem_cons_self _ _)]
          apply isoListMax_const
          intro w hw
          rcases List.mem_map.mp hw with ⟨u, hu, huw⟩
          rw [← huw]
          exact hall u (List.mem_cons_of_mem _ hu)
        rw [hM2]
        apply List.filter_eq_self.mpr
        intro c hc
        simp [hall c hc]
  | _ =>
    simp only [applyNarrowingFilter]
    exact filter_self_idem _ _

/-- C6.  The weekend-class constraint keeps exactly the candidates whose
day-of-week is 5 (Friday, 0 = Sunday — not Saturday/Sunday; 2025-12-05 is
such a Friday), and the weekday-class constraint keeps exactly those with
day-of-week between 1 and 4 (Monday through Thursday). -/
theorem weekend_class_is_friday :
    getDayOfWeek ⟨2025, 12, 5⟩ = 5
    ∧ ∀ (dates : List Candidate) (x : Candidate),
      (x ∈ applyNarrowingFilter dates .weekends ↔
        x ∈ dates ∧ getDayOfWeek x.fromDate = 5)
      ∧ (x ∈ applyNarrowingFilter dates .weekdays ↔
        x ∈ dates ∧ (1 ≤ getDayOfWeek x.fromDate ∧ getDayOfWeek x.fromDate ≤ 4)) := by
  refine ⟨by decide, ?_⟩
  intro dates x
  constructor
  · simp [applyNarrowingFilter, List.mem_filter]
  · simp [applyNarrowingFilter, List.mem_filter, and_assoc]

/-- Mapping a left-inverse projection over a `filterMap` yields a subsequence
of the input list. -/
theorem map_filterMap_sublist {α β : Type} (f : α → Option β) (g : β → α)
    (h : ∀ a b, f a = some b → g b = a) (l : List α) :
    ((l.filterMap f).map g).Sublist l := by
  induction l with
  | nil => simp
  | cons a t ih =>
    cases hf : f a with
    | none => simpa [List.filterMap_cons, hf] using ih.cons a
    | some b =>
      have hg : g b = a := h a b hf
      simpa [List.filterMap_cons, hf, hg] using ih.cons₂ a

/-- The start dates of the month scan are strictly increasing. -/
theorem findAvailabilityInMonth_pairwise (bookings : List Booking)
    (year month nights cap : Nat) :
    (findAvailabilityInMonth bookings year month nights cap).Pairwise
      (fun a b => isoLtB a b = true) := by
  unfold findAvailabilityInMonth
  apply List.Pairwise.sublist (List.take_sublist _ _)
  apply List.Pairwise.sublist (List.filter_sublist _)
  apply List.pairwise_map.mpr
  apply List.Pairwise.imp ?_ (List.pairwise_lt_range' 1 (daysInMonth year month))
  intro a b hab
  simp [isoLtB, hab]

/-- C4.  For every snapshot, year, month, nights, cap and oracle behaviour,
the start dates of the priced candidate list produced by the month flow
(calendar scan, then per-candidate pricing and filtering) are strictly
increasing: chronological order is preserved end-to-end.  The oracle
response is an arbitrary function of the start date, so the result is
independent of how the individual pricing calls resolve. -/
theorem month_candidates_chronological :
    ∀ (bookings : List Booking) (year month nights cap : Nat)
      (oracle : IsoDate → Option (List BookaletRow)),
      ((runMonthFlowValid oracle nights
          (findAvailabilityInMonth bookings year month nights cap)).map
        (·.fromDate)).Pairwise (fun a b => isoLtB a b = true) := by
  intro bookings year month nights cap oracle
  have hsub : ((runMonthFlowValid oracle nights
      (findAvailabilityInMonth bookings year month nights cap)).map
      (·.fromDate)).Sublist
      (findAvailabilityInMonth bookings year month nights cap) := by
    apply map_filterMap_sublist
    intro a b hab
    dsimp only at hab
    split at hab
    · cases hab
      rfl
    · cases hab
  exact (findAvailabilityInMonth_pairwise bookings year month nights cap).sublist hsub

/-- Unfolding of `navUpdate` with its lets reduced. -/
theorem navUpdate_eq (p : PendingNarrow) (b : Bool) :
    navUpdate p b =
      if b then
        (if 12 < p.month + 1 then ⟨p.year + 1, 1, p.nights⟩
         else ⟨p.year, p.month + 1, p.nights⟩)
      else
        (if p.month - 1 < 1 then ⟨p.year - 1, 12, p.nights⟩
         else ⟨p.year, p.month - 1, p.nights⟩) := rfl

/-- C7.  In the narrowing state, "next" advances the pending month by one and
"previous" moves it back by one, the year rolling over at the 1/12 boundary,
with the nights value unchanged, and the session stays in the narrowing
state whatever the month flow finds. -/
theorem narrowing_nav_rollover :
    ∀ (p : PendingNarrow) (probe : MsgProbe) (mi : PendingNarrow)
      (df : Bool) (q : QuoteResult) (vc : Nat),
      1 ≤ p.month → p.month ≤ 12 →
      (probe.navNext = true →
        (handleChatIndex (some p) probe mi df q vc).1 = some (navUpdate p true)
        ∧ (navUpdate p true).nights = p.nights
        ∧ (p.month = 12 → navUpdate p true = ⟨p.year + 1, 1, p.nights⟩)
        ∧ (p.month < 12 → navUpdate p true = ⟨p.year, p.month + 1, p.nights⟩))
      ∧ (probe.navNext = false → probe.navPrev = true →
        (handleChatIndex (some p) probe mi df q vc).1 = some (navUpdate p false)
        ∧ (navUpdate p false).nights = p.nights
        ∧ (p.month = 1 → navUpdate p false = ⟨p.year - 1, 12, p.nights⟩)
        ∧ (1 < p.month → navUpdate p false = ⟨p.year, p.month - 1, p.nights⟩)) := by
  intro p probe mi df q vc h1 h12
  constructor
  · intro hN
    refine ⟨?_, ?_, ?_, ?_⟩
    · by_cases hv : vc = 0 <;>
        simp [handleChatIndex, handlePendingIndex, hN, hv]
    · rw [navUpdate_eq]
      split_ifs <;> rfl
    · intro hm
      rw [navUpdate_eq, if_pos rfl, if_pos (by omega)]
    · intro hm
      rw [navUpdate_eq, if_pos rfl, if_neg (by omega)]
  · intro hN hP
    refine ⟨?_, ?_, ?_, ?_⟩
    · by_cases hv : vc = 0 <;>
        simp [handleChatIndex, handlePendingIndex, hN, hP, hv]
    · rw [navUpdate_eq]
      split_ifs <;> rfl
    · intro hm
      rw [navUpdate_eq, if_neg (by simp), if_pos (by omega)]
    · intro hm
      rw [navUpdate_eq, if_neg (by simp), if_neg (by omega)]

/-- Witness for C7: "next" in December 2025 with 7 nights moves the pending
narrowing state to January 2026 with 7 nights. -/
theorem narrowing_nav_rollover_witness :
    (handleChatIndex (some ⟨2025, 12, 7⟩) ⟨true, false, none, none, .unrelated⟩
        ⟨0, 1, 1⟩ false ⟨"GBP", 0, false⟩ 3).1 = some (navUpdate ⟨2025, 12, 7⟩ true) :=
  ((narrowing_nav_rollover ⟨2025, 12, 7⟩ ⟨true, false, none, none, .unrelated⟩
      ⟨0, 1, 1⟩ false ⟨"GBP", 0, false⟩ 3 (by decide) (by decide)).1 rfl).1

/-- C3.  Divergence of the two `handleChat` revisions on an unrelated
message while narrowing is pending (no navigation, no date, no recognizable
narrowing constraint, LLM probe says unrelated): the `src/unnamed/part_010`
revision deletes the pending narrowing state (transition to idle) and
answers the new question directly, exactly as the claim states, while the
`src/src/index.ts` revision answers the new question directly but leaves the
pending narrowing state in place — it never transitions to idle. -/
theorem narrowing_escape_divergence :
    handleChatPart010 (some ⟨2026, 8, 7⟩) ⟨false, false, none, none, .unrelated⟩
        ⟨0, 1, 1⟩ false ⟨"GBP", 0, false⟩ 0 = (none, .ragAnswer)
    ∧ handleChatIndex (some ⟨2026, 8, 7⟩) ⟨false, false, none, none, .unrelated⟩
        ⟨0, 1, 1⟩ false ⟨"GBP", 0, false⟩ 0 = (some ⟨2026, 8, 7⟩, .ragAnswer) :=
  ⟨rfl, rfl⟩
